import Mathlib

/-!
Shallow embedding of the Nexus packing-service core
(`backend/ai_modules/knapsack_optimizer.py`, `context_extractor.py`,
`mission_synthesizer.py`, plus the multi-bin packing interface declared in
`backend/ai_modules/__init__.py` and consumed by
`backend/server/routes/pack.py`), together with theorems checking the
specification's claims about it.

Modelling conventions:
* Python floats are modelled as exact rationals (`ℚ`).
* Python `int(x)` (truncation toward zero) is `pyInt`.
* Python dicts that are iterated are modelled as association lists in
  insertion order; dict construction that overwrites on duplicate keys is
  modelled by searching the reversed list.
* The CP-SAT solver is abstracted by a `SolverOutcome` input: an assignment
  returned with status OPTIMAL or FEASIBLE satisfies every constraint posted
  to the model (`modelSat`), which is exactly the solver's contract.
-/

attribute [local semireducible] Rat.mul Rat.add Rat.sub Rat.inv

namespace Nexus

/-- Python `int(x)` applied to a rational: truncation toward zero. -/
def pyInt (q : ℚ) : ℤ := if 0 ≤ q then ⌊q⌋ else ⌈q⌉

/-- Python `str.lower()`, character by character (all labels involved are
ASCII). -/
def pyLower (s : String) : String := String.mk (s.data.map Char.toLower)

/-- Fields of `models.ItemContext` that the packing claims depend on
(name, category, weight estimate, tags); the remaining free-text metadata
fields of the pydantic model are not referenced by any claim. -/
structure ItemContext where
  name : String
  inferred_category : String
  weight_estimate : Option String
  semantic_tags : List String
  deriving DecidableEq

/-- `models.RetrievedItem`: one row returned by vector search. -/
structure RetrievedItem where
  item_id : String
  score : ℚ
  image_url : Option String
  weight_grams : Option ℚ
  context : ItemContext
  deriving DecidableEq

/-- `knapsack_optimizer.PackableItem`. -/
structure PackableItem where
  item_id : String
  name : String
  similarity_score : ℚ
  weight_grams : ℚ
  quantity_owned : ℕ
  category : String
  semantic_tags : List String
  deriving DecidableEq

instance : Inhabited PackableItem := ⟨⟨"", "", 0, 0, 0, "", []⟩⟩

/-- `knapsack_optimizer.PackingConstraints`; the Python dicts
(`category_minimums`, …) are association lists in insertion order. -/
structure PackingConstraints where
  max_weight_grams : ℚ
  category_minimums : List (String × ℕ)
  category_maximums : List (String × ℕ)
  tag_minimums : List (String × ℕ)
  max_per_item : Option ℕ
  pinned_items : List String
  deriving DecidableEq

/-- `knapsack_optimizer.PackingResult`. -/
structure PackingResult where
  packed_items : List (PackableItem × ℕ)
  total_weight_grams : ℚ
  total_similarity_score : ℚ
  weight_utilization : ℚ
  status : String
  solver_time_ms : ℚ
  unpacked_items : List PackableItem
  relaxed_constraints : List String
  deriving DecidableEq

/-- `knapsack_optimizer.WEIGHT_ESTIMATES_GRAMS`. -/
def WEIGHT_ESTIMATES_GRAMS : List (String × ℚ) :=
  [("ultralight", 100), ("light", 300), ("medium", 700), ("heavy", 1500)]

/-- Python `(s or d)` for an optional string: `None` and `""` are falsy. -/
def orBlank (s : Option String) (d : String) : String :=
  match s with
  | none => d
  | some v => if v = "" then d else v

/-- `knapsack_optimizer.estimate_weight`:
`WEIGHT_ESTIMATES_GRAMS.get((weight_estimate or "medium").lower(), 500)`. -/
def estimate_weight (item : RetrievedItem) : ℚ :=
  (WEIGHT_ESTIMATES_GRAMS.lookup (pyLower (orBlank item.context.weight_estimate "medium"))).getD 500

/-- Python `(a or b)` for optional numbers: `None` and `0.0` are falsy. -/
def pyOrWeight (a b : Option ℚ) : Option ℚ :=
  match a with
  | none => b
  | some v => if v = 0 then b else some v

/-- Python `(a or d)` for an optional number against a final default. -/
def pyOrDefault (a : Option ℚ) (d : ℚ) : ℚ :=
  match a with
  | none => d
  | some v => if v = 0 then d else v

/-- `KnapsackOptimizer.retrieved_to_packable`. The weight is
`((overrides.get(id) if overrides else None) or item.weight_grams) or estimate_weight(item)`
and the quantity is `inventory.get(id, 1) if inventory else 1`; an absent
dict and an empty dict behave identically, so both maps are plain
association lists. -/
def retrieved_to_packable (items : List RetrievedItem)
    (inventory : List (String × ℕ)) (weight_overrides : List (String × ℚ)) :
    List PackableItem :=
  items.map fun item =>
    { item_id := item.item_id
      name := item.context.name
      similarity_score := item.score
      weight_grams :=
        pyOrDefault (pyOrWeight (weight_overrides.lookup item.item_id) item.weight_grams)
          (estimate_weight item)
      quantity_owned := (inventory.lookup item.item_id).getD 1
      category := item.context.inferred_category
      semantic_tags := item.context.semantic_tags }

/-- Upper bound of decision variable `x_i`:
`quantity_owned`, additionally capped by `max_per_item` when set
(`knapsack_optimizer.py` lines 206-210). -/
def upperBound (c : PackingConstraints) (item : PackableItem) : ℕ :=
  match c.max_per_item with
  | none => item.quantity_owned
  | some m => min item.quantity_owned m

/-- `int(item.weight_grams * SCALE)` with `SCALE = 10` (line 216). -/
def scaledWeight (item : PackableItem) : ℤ := pyInt (item.weight_grams * 10)

/-- `int(constraints.max_weight_grams * SCALE)` (line 217). -/
def scaledMax (c : PackingConstraints) : ℤ := pyInt (c.max_weight_grams * 10)

/-- `int((item.similarity_score + EPSILON) * SCORE_SCALE)` with
`EPSILON = 0.001`, `SCORE_SCALE = 10000` (lines 276-280). -/
def scaledScore (item : PackableItem) : ℤ :=
  pyInt ((item.similarity_score + 1 / 1000) * 10000)

/-- Total quantity assigned to the items selected by `f`. -/
def qtyWhere (l : List (PackableItem × ℕ)) (f : PackableItem → Bool) : ℕ :=
  ((l.filter fun p => f p.1).map fun p => p.2).sum

/-- `sum(x[i] for i in indices)` where `indices` selects category `cat`. -/
def catQty (items : List PackableItem) (q : List ℕ) (cat : String) : ℕ :=
  qtyWhere (items.zip q) (fun it => it.category == cat)

/-- `sum(x[i] for i in indices)` where `indices` selects tag `tag`. -/
def tagQty (items : List PackableItem) (q : List ℕ) (tag : String) : ℕ :=
  qtyWhere (items.zip q) (fun it => it.semantic_tags.contains tag)

/-- `sum(x[i] for i in indices)` where `indices` selects item id `pid`. -/
def pinQty (items : List PackableItem) (q : List ℕ) (pid : String) : ℕ :=
  qtyWhere (items.zip q) (fun it => it.item_id == pid)

/-- `total_available = sum(items[i].quantity_owned for i in indices)` for a
category (line 232); note the source sums the raw `quantity_owned`, not the
`max_per_item`-capped variable bounds. -/
def catAvail (items : List PackableItem) (cat : String) : ℕ :=
  ((items.filter fun it => it.category == cat).map fun it => it.quantity_owned).sum

/-- `total_available` for a tag (line 257). -/
def tagAvail (items : List PackableItem) (tag : String) : ℕ :=
  ((items.filter fun it => it.semantic_tags.contains tag).map fun it => it.quantity_owned).sum

/-- `effective_min = min(minimum, total_available)` for a category (line 233). -/
def effCatMin (items : List PackableItem) (cat : String) (m : ℕ) : ℕ :=
  min m (catAvail items cat)

/-- `effective_min = min(minimum, total_available)` for a tag (line 258). -/
def effTagMin (items : List PackableItem) (tag : String) (m : ℕ) : ℕ :=
  min m (tagAvail items tag)

/-- Whether any candidate has the given category. -/
def hasCat (items : List PackableItem) (cat : String) : Bool :=
  items.any fun it => it.category == cat

/-- Whether any candidate carries the given tag. -/
def hasTag (items : List PackableItem) (tag : String) : Bool :=
  items.any fun it => it.semantic_tags.contains tag

/-- Whether any candidate has the given item id. -/
def hasPin (items : List PackableItem) (pid : String) : Bool :=
  items.any fun it => it.item_id == pid

/-- Relaxation note `"No items available for category '<cat>' (need >=m)"`. -/
def noCatNote (cat : String) (m : ℕ) : String :=
  "No items available for category '" ++ cat ++ "' (need >=" ++ toString m ++ ")"

/-- Relaxation note `"Category '<cat>': relaxed from >=m to >=m' (only a available)"`. -/
def catRelaxNote (cat : String) (m avail : ℕ) : String :=
  "Category '" ++ cat ++ "': relaxed from >=" ++ toString m ++ " to >=" ++
    toString (min m avail) ++ " (only " ++ toString avail ++ " available)"

/-- Relaxation note `"No items available for tag '<tag>' (need >=m)"`. -/
def noTagNote (tag : String) (m : ℕ) : String :=
  "No items available for tag '" ++ tag ++ "' (need >=" ++ toString m ++ ")"

/-- Relaxation note `"Tag '<tag>': relaxed from >=m to >=m' (only a available)"`. -/
def tagRelaxNote (tag : String) (m avail : ℕ) : String :=
  "Tag '" ++ tag ++ "': relaxed from >=" ++ toString m ++ " to >=" ++
    toString (min m avail) ++ " (only " ++ toString avail ++ " available)"

/-- Relaxation note `"Pinned item <id> not found in candidates"`. -/
def pinNote (pid : String) : String :=
  "Pinned item " ++ pid ++ " not found in candidates"

/-- The note the category-minimum loop appends for one `(cat, minimum)`
entry (lines 226-239), if any. -/
def catMinNote (items : List PackableItem) (p : String × ℕ) : Option String :=
  if hasCat items p.1 then
    if catAvail items p.1 < p.2 then some (catRelaxNote p.1 p.2 (catAvail items p.1)) else none
  else some (noCatNote p.1 p.2)

/-- The note the tag-minimum loop appends for one `(tag, minimum)` entry
(lines 249-264), if any. -/
def tagMinNote (items : List PackableItem) (p : String × ℕ) : Option String :=
  if hasTag items p.1 then
    if tagAvail items p.1 < p.2 then some (tagRelaxNote p.1 p.2 (tagAvail items p.1)) else none
  else some (noTagNote p.1 p.2)

/-- The note the pinned-item loop appends for one pinned id (lines 266-272),
if any. -/
def pinMissingNote (items : List PackableItem) (pid : String) : Option String :=
  if hasPin items pid then none else some (pinNote pid)

/-- The `relaxed` list accumulated by `solve` before the solver runs, in
source order: category-minimum notes, tag-minimum notes, pinned-item notes
(category maximums never add a note). -/
def relaxedNotes (items : List PackableItem) (c : PackingConstraints) : List String :=
  c.category_minimums.filterMap (catMinNote items)
    ++ c.tag_minimums.filterMap (tagMinNote items)
    ++ c.pinned_items.filterMap (pinMissingNote items)

/-- The conjunction of every constraint `solve` posts to the CP-SAT model:
variable bounds (lines 206-210), the scaled weight constraint (lines
215-222), effective category minimums (lines 226-239), category maximums
(lines 242-246), effective tag minimums (lines 249-264) and pinned items
(lines 266-272).  An assignment returned with status OPTIMAL or FEASIBLE
satisfies this predicate. -/
def modelSat (items : List PackableItem) (c : PackingConstraints) (q : List ℕ) : Prop :=
  q.length = items.length
  ∧ (∀ p ∈ items.zip q, p.2 ≤ upperBound c p.1)
  ∧ (((items.zip q).map fun p => (p.2 : ℤ) * scaledWeight p.1).sum ≤ scaledMax c)
  ∧ (∀ p ∈ c.category_minimums, hasCat items p.1 = true →
        effCatMin items p.1 p.2 ≤ catQty items q p.1)
  ∧ (∀ p ∈ c.category_maximums, hasCat items p.1 = true →
        catQty items q p.1 ≤ p.2)
  ∧ (∀ p ∈ c.tag_minimums, hasTag items p.1 = true →
        effTagMin items p.1 p.2 ≤ tagQty items q p.1)
  ∧ (∀ pid ∈ c.pinned_items, hasPin items pid = true →
        1 ≤ pinQty items q pid)

instance (items : List PackableItem) (c : PackingConstraints) (q : List ℕ) :
    Decidable (modelSat items c q) := by
  unfold modelSat; infer_instance

/-- The objective posted to the model:
`sum(x[i] * scaled_scores[i])` (lines 281-283). -/
def objective (items : List PackableItem) (q : List ℕ) : ℤ :=
  ((items.zip q).map fun p => (p.2 : ℤ) * scaledScore p.1).sum

/-- The `(item, qty)` pairs with `qty > 0` (lines 299-306). -/
def packedOf (items : List PackableItem) (q : List ℕ) : List (PackableItem × ℕ) :=
  (items.zip q).filter fun p => 0 < p.2

/-- The items whose assigned quantity is zero (lines 299-306). -/
def unpackedOf (items : List PackableItem) (q : List ℕ) : List PackableItem :=
  ((items.zip q).filter fun p => p.2 == 0).map fun p => p.1

/-- Result extraction on OPTIMAL/FEASIBLE status (lines 293-329). -/
def successResult (items : List PackableItem) (c : PackingConstraints)
    (q : List ℕ) (optimal : Bool) (t : ℚ) : PackingResult :=
  let packed := packedOf items q
  let total_weight : ℚ := (packed.map fun p => p.1.weight_grams * (p.2 : ℚ)).sum
  let total_score : ℚ := (packed.map fun p => p.1.similarity_score * (p.2 : ℚ)).sum
  { packed_items := packed
    total_weight_grams := total_weight
    total_similarity_score := total_score
    weight_utilization := if 0 < c.max_weight_grams then total_weight / c.max_weight_grams else 0
    status := if optimal then "optimal" else "feasible"
    solver_time_ms := t
    unpacked_items := unpackedOf items q
    relaxed_constraints := relaxedNotes items c }

/-- The note appended on INFEASIBLE status (line 340). -/
def infeasibleNote : String :=
  "Problem is infeasible — try relaxing weight or diversity constraints"

/-- Result returned on INFEASIBLE status (lines 330-341). -/
def infeasibleResult (items : List PackableItem) (c : PackingConstraints)
    (t : ℚ) : PackingResult :=
  { packed_items := []
    total_weight_grams := 0
    total_similarity_score := 0
    weight_utilization := 0
    status := "infeasible"
    solver_time_ms := t
    unpacked_items := items
    relaxed_constraints := relaxedNotes items c ++ [infeasibleNote] }

/-- Result returned by the `if not items` early exit (lines 193-199); the
two list fields left to their dataclass defaults are empty. -/
def emptyResult : PackingResult :=
  { packed_items := []
    total_weight_grams := 0
    total_similarity_score := 0
    weight_utilization := 0
    status := "infeasible"
    solver_time_ms := 0
    unpacked_items := []
    relaxed_constraints := [] }

/-- Abstraction of the CP-SAT call: either INFEASIBLE, or a solution
assignment together with whether the status was OPTIMAL. -/
inductive SolverOutcome where
  | infeasible : SolverOutcome
  | solution (optimal : Bool) (q : List ℕ) : SolverOutcome

/-- `KnapsackOptimizer.solve`, as a function of the solver outcome and the
measured wall time `t`.  A `SolverOutcome.solution` passed here is assumed
to satisfy `modelSat` — the CP-SAT contract for OPTIMAL/FEASIBLE. -/
def solve (items : List PackableItem) (c : PackingConstraints)
    (out : SolverOutcome) (t : ℚ) : PackingResult :=
  if items.isEmpty then emptyResult
  else
    match out with
    | .infeasible => infeasibleResult items c t
    | .solution opt q => successResult items c q opt t

/-! ### Batch context extraction (`context_extractor.py`) -/

/-- `asyncio.gather(*tasks)` without `return_exceptions`: if every task
succeeds the results are returned in input order; if any task raises, the
whole gather raises and no per-item results are delivered.  The per-image
outcome of `ContextExtractor.extract` (network + JSON parse) is the input. -/
def gatherAll {α : Type} : List (Except String α) → Except String (List α)
  | [] => Except.ok []
  | Except.ok a :: rest => (gatherAll rest).map fun l => a :: l
  | Except.error e :: _ => Except.error e

/-- `ContextExtractor.extract_batch` (lines 123-131): dispatches one
`extract` per image and awaits them with `asyncio.gather(*tasks)`. -/
def extract_batch (outcomes : List (Except String ItemContext)) :
    Except String (List ItemContext) :=
  gatherAll outcomes

/-! ### Mission synthesizer plan parsing (`mission_synthesizer.py`) -/

/-- One entry of the LLM's `selected_items` / `rejected_items` arrays; the
parser reads only `item_id` and `reason`. -/
structure SynthEntry where
  item_id : String
  reason : String
  deriving DecidableEq

/-- The parsed JSON object handed to `_parse_plan` (missing keys already
defaulted to empty collections, as `data.get(..., [])` does). -/
structure SynthData where
  mission_summary : String
  selected_items : List SynthEntry
  rejected_items : List SynthEntry
  warnings : List String
  cross_domain_insights : List String
  deriving DecidableEq

/-- `models.MissionPlan`; the `reasoning` dict is an association list in
assignment order (later assignments overwrite earlier ones). -/
structure MissionPlan where
  mission_summary : String
  selected_items : List RetrievedItem
  reasoning : List (String × String)
  warnings : List String
  rejected_items : List RetrievedItem
  deriving DecidableEq

/-- `item_map = {item.item_id: item for item in all_items}` lookup: the
last occurrence of an id wins. -/
def lookupItem (all_items : List RetrievedItem) (id : String) : Option RetrievedItem :=
  all_items.reverse.find? fun it => it.item_id == id

/-- Lookup in a dict modelled as an assignment list: the last write wins. -/
def dictGet (l : List (String × String)) (k : String) : Option String :=
  l.reverse.lookup k

/-- `MissionSynthesizer._parse_plan` (lines 144-180). -/
def parse_plan (data : SynthData) (all_items : List RetrievedItem) : MissionPlan :=
  { mission_summary := data.mission_summary
    selected_items := data.selected_items.filterMap fun s => lookupItem all_items s.item_id
    reasoning :=
      ((data.selected_items.filter fun s => (lookupItem all_items s.item_id).isSome).map
          fun s => (s.item_id, s.reason))
        ++ ((data.rejected_items.filter fun r => (lookupItem all_items r.item_id).isSome).map
          fun r => (r.item_id, "REJECTED: " ++ r.reason))
    warnings := data.warnings ++ data.cross_domain_insights.map fun s => "[INSIGHT] " ++ s
    rejected_items := data.rejected_items.filterMap fun r => lookupItem all_items r.item_id }

/-! ### Spec-side definitions used as refinement targets

These two definitions follow the specification's words, not the source;
they exist only to be compared against the source-derived definitions. -/

/-- Modelled from the spec: `scaled_score_i = round((similarity_i + ε) * S)`
with `S = 10000`, `ε = 0.001` (§4.5 Objective).  The source uses `int(...)`
instead; `specScaledScore` is the spec's claimed formula. -/
def specScaledScore (s : ℚ) : ℤ := round ((s + 1 / 1000) * 10000)

/-- Total availability of a selector computed from per-item caps `u`. -/
def specCatAvail (u : PackableItem → ℕ) (items : List PackableItem) (cat : String) : ℕ :=
  ((items.filter fun it => it.category == cat).map u).sum

/-- Modelled from the spec: `A_cat = sum of U_i` over matching items with
`U_i = min(quantity_owned_i, max_per_item or ∞)` and effective minimum
`m' = min(m, A_cat)` (§4.5 Category minimums).  The source instead sums the
raw `quantity_owned`. -/
def specEffCatMin (c : PackingConstraints) (items : List PackableItem)
    (cat : String) (m : ℕ) : ℕ :=
  min m (specCatAvail (upperBound c) items cat)

/-- Modelled from the spec: weight precedence
(override → stored explicit → estimate), by presence rather than by Python
truthiness (§4.5 retrievedToPackable). -/
def specWeightOf (weight_overrides : List (String × ℚ)) (item : RetrievedItem) : ℚ :=
  match weight_overrides.lookup item.item_id with
  | some w => w
  | none =>
    match item.weight_grams with
    | some w => w
    | none => estimate_weight item

/-- The spec-shaped image of one retrieved item under
`retrievedToPackable`. -/
def specRetrievedToPackable (inventory : List (String × ℕ))
    (weight_overrides : List (String × ℚ)) (item : RetrievedItem) : PackableItem :=
  { item_id := item.item_id
    name := item.context.name
    similarity_score := item.score
    weight_grams := specWeightOf weight_overrides item
    quantity_owned := (inventory.lookup item.item_id).getD 1
    category := item.context.inferred_category
    semantic_tags := item.context.semantic_tags }

/-! ### Multi-bin packing

`ai_modules/__init__.py` imports `ContainerSpec`, `ContainerResult` and
`MultiPackingResult` from `knapsack_optimizer` and `routes/pack.py`
constructs `ContainerSpec`s and consumes all fields below, but the
implementation of the multi-bin solver is not among the sources; it is
modelled from spec §4.5 "Multi-bin extension". -/

/-- Modelled from the spec: one bin of the multi-bin problem (`ContainerSpec`,
declared in `ai_modules/__init__.py`, built by `routes/pack.py`). -/
structure ContainerSpec where
  container_id : String
  name : String
  max_weight_grams : ℚ
  deriving DecidableEq

instance : Inhabited ContainerSpec := ⟨⟨"", "", 0⟩⟩

/-- Modelled from the spec: per-container slice of a multi-bin result
(fields as consumed by `routes/pack.py` lines 186-205). -/
structure ContainerResult where
  container_id : String
  container_name : String
  max_weight_grams : ℚ
  packed_items : List (PackableItem × ℕ)
  total_weight_grams : ℚ
  weight_utilization : ℚ
  deriving DecidableEq

/-- Modelled from the spec: result of the multi-bin solve (fields as
consumed by `routes/pack.py` lines 207-230). -/
structure MultiPackingResult where
  container_results : List ContainerResult
  unpacked_items : List PackableItem
  total_weight_grams : ℚ
  total_similarity_score : ℚ
  status : String
  solver_time_ms : ℚ
  relaxed_constraints : List String
  deriving DecidableEq

/-- `U_i` for the multi-bin model: `quantity_owned`, capped by
`max_per_item` when diversity constraints are supplied. -/
def mUpper (dc : Option PackingConstraints) (it : PackableItem) : ℕ :=
  match dc with
  | none => it.quantity_owned
  | some c => upperBound c it

/-- `sum_b x_{i,b}`: total quantity of item `i` across all bins. -/
def itemTotal (bins : ℕ) (X : ℕ → ℕ → ℕ) (i : ℕ) : ℕ :=
  ∑ b ∈ Finset.range bins, X b i

/-- `sum_i x_{i,b} * weight_i` for one bin. -/
def binWeight (items : List PackableItem) (row : ℕ → ℕ) : ℚ :=
  ∑ i ∈ Finset.range items.length, (items.getD i default).weight_grams * row i

/-- The list of per-item totals across bins. -/
def totalsList (bins : ℕ) (items : List PackableItem) (X : ℕ → ℕ → ℕ) : List ℕ :=
  (List.range items.length).map (itemTotal bins X)

/-- Modelled from the spec: the diversity constraints of the multi-bin
model apply to the per-item totals, with the spec's `U_i`-based effective
minimums (§4.5). -/
def specDiversitySat (items : List PackableItem) (dc : Option PackingConstraints)
    (t : List ℕ) : Prop :=
  match dc with
  | none => True
  | some c =>
      (∀ p ∈ c.category_minimums, hasCat items p.1 = true →
          specEffCatMin c items p.1 p.2 ≤ catQty items t p.1)
      ∧ (∀ p ∈ c.category_maximums, hasCat items p.1 = true →
          catQty items t p.1 ≤ p.2)
      ∧ (∀ p ∈ c.tag_minimums, hasTag items p.1 = true →
          min p.2 (((items.filter fun it => it.semantic_tags.contains p.1).map
            (upperBound c)).sum) ≤ tagQty items t p.1)
      ∧ (∀ pid ∈ c.pinned_items, hasPin items pid = true → 1 ≤ pinQty items t pid)

instance (items : List PackableItem) (t : List ℕ) :
    (dc : Option PackingConstraints) → Decidable (specDiversitySat items dc t)
  | none => .isTrue trivial
  | some c => by unfold specDiversitySat; infer_instance

/-- Modelled from the spec: every constraint of the multi-bin model —
per-bin weight caps, per-item totals bounded by `U_i`, and diversity over
totals (§4.5 Multi-bin extension). -/
def multiModelSat (items : List PackableItem) (specs : List ContainerSpec)
    (dc : Option PackingConstraints) (X : ℕ → ℕ → ℕ) : Prop :=
  (∀ b < specs.length, binWeight items (X b) ≤ (specs.getD b default).max_weight_grams)
  ∧ (∀ i < items.length, itemTotal specs.length X i ≤ mUpper dc (items.getD i default))
  ∧ specDiversitySat items dc (totalsList specs.length items X)

instance (items : List PackableItem) (specs : List ContainerSpec)
    (dc : Option PackingConstraints) (X : ℕ → ℕ → ℕ) :
    Decidable (multiModelSat items specs dc X) := by
  unfold multiModelSat; infer_instance

/-- Modelled from the spec: the multi-bin objective
`sum over (i, b) of x_{i,b} * scaled_score_i` (§4.5). -/
def multiObjective (items : List PackableItem) (bins : ℕ) (X : ℕ → ℕ → ℕ) : ℤ :=
  ∑ b ∈ Finset.range bins, ∑ i ∈ Finset.range items.length,
    (X b i : ℤ) * specScaledScore (items.getD i default).similarity_score

/-- Abstraction of the multi-bin solver call. -/
inductive MultiOutcome where
  | infeasible : MultiOutcome
  | solution (optimal : Bool) (X : ℕ → ℕ → ℕ) : MultiOutcome

/-- The `(item, qty)` pairs with positive quantity in one bin. -/
def containerPacked (items : List PackableItem) (row : ℕ → ℕ) :
    List (PackableItem × ℕ) :=
  (List.range items.length).filterMap fun i =>
    if 0 < row i then some (items.getD i default, row i) else none

/-- Modelled from the spec: the per-container slice of a successful
multi-bin solve. -/
def containerResultOf (spec : ContainerSpec) (items : List PackableItem)
    (row : ℕ → ℕ) : ContainerResult :=
  { container_id := spec.container_id
    container_name := spec.name
    max_weight_grams := spec.max_weight_grams
    packed_items := containerPacked items row
    total_weight_grams := binWeight items row
    weight_utilization :=
      if 0 < spec.max_weight_grams then binWeight items row / spec.max_weight_grams else 0 }

/-- Modelled from the spec: the relaxation notes of the multi-bin model,
with the spec's `U_i`-based availability. -/
def specRelaxedNotes (items : List PackableItem) (dc : Option PackingConstraints) :
    List String :=
  match dc with
  | none => []
  | some c =>
      c.category_minimums.filterMap (fun p =>
        if hasCat items p.1 then
          if specCatAvail (upperBound c) items p.1 < p.2 then
            some (catRelaxNote p.1 p.2 (specCatAvail (upperBound c) items p.1))
          else none
        else some (noCatNote p.1 p.2))
        ++ c.tag_minimums.filterMap (fun p =>
          if hasTag items p.1 then
            if ((items.filter fun it => it.semantic_tags.contains p.1).map
                (upperBound c)).sum < p.2 then
              some (tagRelaxNote p.1 p.2 (((items.filter fun it =>
                it.semantic_tags.contains p.1).map (upperBound c)).sum))
            else none
          else some (noTagNote p.1 p.2))
        ++ c.pinned_items.filterMap (pinMissingNote items)

/-- Modelled from the spec: `solveMulti` — multi-bin packing over a list of
`ContainerSpec` with optional diversity constraints (§4.5 "Multi-bin
extension"); the solver is abstracted by `MultiOutcome` exactly as in
`solve`. -/
def solve_multi (items : List PackableItem) (specs : List ContainerSpec)
    (dc : Option PackingConstraints) (out : MultiOutcome) (t : ℚ) :
    MultiPackingResult :=
  match out with
  | .infeasible =>
      { container_results := []
        unpacked_items := items
        total_weight_grams := 0
        total_similarity_score := 0
        status := "infeasible"
        solver_time_ms := t
        relaxed_constraints := specRelaxedNotes items dc ++ [infeasibleNote] }
  | .solution opt X =>
      { container_results :=
          (List.range specs.length).map fun b =>
            containerResultOf (specs.getD b default) items (X b)
        unpacked_items :=
          (List.range items.length).filterMap fun i =>
            if itemTotal specs.length X i = 0 then some (items.getD i default) else none
        total_weight_grams := ∑ b ∈ Finset.range specs.length, binWeight items (X b)
        total_similarity_score :=
          ∑ b ∈ Finset.range specs.length, ∑ i ∈ Finset.range items.length,
            (items.getD i default).similarity_score * X b i
        status := if opt then "optimal" else "feasible"
        solver_time_ms := t
        relaxed_constraints := specRelaxedNotes items dc }

/-! ### Helper lemmas -/

theorem pyInt_eq_of_intCast {q : ℚ} {z : ℤ} (h : q = (z : ℚ)) : pyInt q = z := by
  subst h
  unfold pyInt
  split
  · exact Int.floor_intCast z
  · exact Int.ceil_intCast z

theorem pyInt_cast_le {q : ℚ} (h : 0 ≤ q) : (pyInt q : ℚ) ≤ q := by
  unfold pyInt
  rw [if_pos h]
  exact Int.floor_le q

theorem qtyWhere_filter_pos (l : List (PackableItem × ℕ)) (f : PackableItem → Bool) :
    qtyWhere (l.filter fun p => 0 < p.2) f = qtyWhere l f := by
  induction l with
  | nil => rfl
  | cons p tl ih =>
    by_cases hp : 0 < p.2
    · by_cases hf : f p.1 <;> simp [qtyWhere, List.filter_cons, hp, hf] at ih ⊢ <;> omega
    · have h0 : p.2 = 0 := Nat.eq_zero_of_not_pos hp
      by_cases hf : f p.1 <;> simp [qtyWhere, List.filter_cons, hp, hf, h0] at ih ⊢ <;> omega

theorem qtyWhere_eq_zero {l : List (PackableItem × ℕ)} {f : PackableItem → Bool}
    (h : ∀ p ∈ l, f p.1 = false) : qtyWhere l f = 0 := by
  unfold qtyWhere
  rw [List.filter_eq_nil_iff.mpr (by simpa using h)]
  rfl

theorem wmap_filter_pos (l : List (PackableItem × ℕ)) :
    ((l.filter fun p => 0 < p.2).map fun p => p.1.weight_grams * (p.2 : ℚ)).sum
      = (l.map fun p => p.1.weight_grams * (p.2 : ℚ)).sum := by
  induction l with
  | nil => rfl
  | cons p tl ih =>
    by_cases hp : 0 < p.2
    · simp [List.filter_cons, hp, ih]
    · have h0 : p.2 = 0 := Nat.eq_zero_of_not_pos hp
      simp [List.filter_cons, hp, h0, ih]

theorem scaledWeight_sum_cast (l : List (PackableItem × ℕ))
    (h : ∀ p ∈ l, ∃ z : ℤ, p.1.weight_grams * 10 = (z : ℚ)) :
    (((l.map fun p => (p.2 : ℤ) * scaledWeight p.1).sum : ℤ) : ℚ)
      = (l.map fun p => p.1.weight_grams * (p.2 : ℚ)).sum * 10 := by
  induction l with
  | nil => simp
  | cons p tl ih =>
    obtain ⟨z, hz⟩ := h p (List.mem_cons_self p tl)
    have hsw : scaledWeight p.1 = z := pyInt_eq_of_intCast hz
    have ih' := ih fun x hx => h x (List.mem_cons_of_mem p hx)
    rw [List.map_cons, List.sum_cons, Int.cast_add, Int.cast_mul, hsw, ih',
      List.map_cons, List.sum_cons, ← hz]
    push_cast
    ring

theorem scaledScore_sum_cast (l : List (PackableItem × ℕ))
    (h : ∀ p ∈ l, ∃ z : ℤ, (p.1.similarity_score + 1 / 1000) * 10000 = (z : ℚ)) :
    (((l.map fun p => (p.2 : ℤ) * scaledScore p.1).sum : ℤ) : ℚ)
      = 10000 * (l.map fun p => p.1.similarity_score * (p.2 : ℚ)).sum
        + 10 * (((l.map fun p => p.2).sum : ℕ) : ℚ) := by
  induction l with
  | nil => simp
  | cons p tl ih =>
    obtain ⟨z, hz⟩ := h p (List.mem_cons_self p tl)
    have hss : scaledScore p.1 = z := pyInt_eq_of_intCast hz
    have ih' := ih fun x hx => h x (List.mem_cons_of_mem p hx)
    have hz' : (z : ℚ) = p.1.similarity_score * 10000 + 10 := by
      rw [← hz]; ring
    simp only [List.map_cons, List.sum_cons, Int.cast_add, Int.cast_mul, Nat.cast_add,
      Int.cast_natCast, hss, hz', ih']
    ring

theorem solve_solution_eq (items : List PackableItem) (c : PackingConstraints)
    (q : List ℕ) (opt : Bool) (t : ℚ) (hne : items ≠ []) :
    solve items c (SolverOutcome.solution opt q) t = successResult items c q opt t := by
  have h : ¬items.isEmpty = true := by simp [List.isEmpty_iff, hne]
  unfold solve
  rw [if_neg h]

theorem solve_infeasible_eq (items : List PackableItem) (c : PackingConstraints)
    (t : ℚ) (hne : items ≠ []) :
    solve items c SolverOutcome.infeasible t = infeasibleResult items c t := by
  have h : ¬items.isEmpty = true := by simp [List.isEmpty_iff, hne]
  unfold solve
  rw [if_neg h]

theorem successResult_packed (items : List PackableItem) (c : PackingConstraints)
    (q : List ℕ) (opt : Bool) (t : ℚ) :
    (successResult items c q opt t).packed_items = packedOf items q := rfl

theorem successResult_total_weight (items : List PackableItem) (c : PackingConstraints)
    (q : List ℕ) (opt : Bool) (t : ℚ) :
    (successResult items c q opt t).total_weight_grams
      = ((packedOf items q).map fun p => p.1.weight_grams * (p.2 : ℚ)).sum := rfl

theorem successResult_status (items : List PackableItem) (c : PackingConstraints)
    (q : List ℕ) (opt : Bool) (t : ℚ) :
    (successResult items c q opt t).status = if opt then "optimal" else "feasible" := rfl

/-- Total similarity of a selection `q` over the candidate list. -/
def totalSimOf (items : List PackableItem) (q : List ℕ) : ℚ :=
  ((items.zip q).map fun p => p.1.similarity_score * (p.2 : ℚ)).sum

/-- Total item count of a selection `q`. -/
def countOf (items : List PackableItem) (q : List ℕ) : ℕ :=
  ((items.zip q).map fun p => p.2).sum

/-- Total weight of a selection `q`. -/
def selWeightOf (items : List PackableItem) (q : List ℕ) : ℚ :=
  ((items.zip q).map fun p => p.1.weight_grams * (p.2 : ℚ)).sum

/-! ### Concrete instances used by counterexamples and witnesses -/

/-- An item weighing 1.69 g: its scaled weight `int(16.9) = 16` loses the
final 0.09 g of every packed unit. -/
def cx1Item : PackableItem := ⟨"w1", "w1", 9 / 10, 169 / 100, 1, "misc", []⟩

/-- A 1.6 g cap: scaled cap `int(16) = 16`. -/
def cx1C : PackingConstraints := ⟨8 / 5, [], [], [], none, []⟩

/-- Witness item for the amended weight-cap claim: 0.5 g, two owned. -/
def w1Item : PackableItem := ⟨"w", "w", 1 / 2, 1 / 2, 2, "misc", []⟩

/-- Witness constraints: 1 g cap. -/
def w1C : PackingConstraints := ⟨1, [], [], [], none, []⟩

/-- Two medical items with two owned each, used against a category minimum
of 3 under `max_per_item = 1`. -/
def cx3Items : List PackableItem :=
  [⟨"a", "a", 1 / 2, 100, 2, "medical", []⟩, ⟨"b", "b", 1 / 2, 100, 2, "medical", []⟩]

/-- Constraints for the availability counterexample: `medical ≥ 3`,
`max_per_item = 1`. -/
def cx3C : PackingConstraints := ⟨100000, [("medical", 3)], [], [], some 1, []⟩

/-- One medical wound-care item, one owned. -/
def w3Items : List PackableItem := [⟨"m1", "m1", 1 / 2, 100, 1, "medical", ["wound_care"]⟩]

/-- Constraints asking for two medical items and two wound-care tags. -/
def w3C : PackingConstraints := ⟨20000, [("medical", 2)], [], [("wound_care", 2)], none, []⟩

/-- The dataclass-default `PackingConstraints()`. -/
def defaultConstraints : PackingConstraints := ⟨20000, [], [], [], none, []⟩

/-- A plain single item for witnesses needing a nonempty candidate list. -/
def w4Item : PackableItem := ⟨"x", "x", 1 / 2, 100, 1, "misc", []⟩

/-- Witness items for the packing invariants: a pinned medical item (three
owned) and a clothing item (two owned). -/
def w5Items : List PackableItem :=
  [⟨"p1", "p1", 1 / 2, 100, 3, "medical", ["wound_care"]⟩,
   ⟨"p2", "p2", 1 / 2, 200, 2, "clothing", []⟩]

/-- Witness constraints: `clothing ≤ 1`, `max_per_item = 2`, pin `p1`. -/
def w5C : PackingConstraints := ⟨20000, [], [("clothing", 1)], [], some 2, ["p1"]⟩

/-! ### Claim theorems -/

/-- C10 (confirmed): `solve` on an empty candidate list returns — without
consulting the solver outcome `out` at all — an infeasible result whose
lists are all empty, whose numeric fields are all zero, whose
`solver_time_ms` is 0, and whose `relaxed_constraints` is empty (no
"Problem is infeasible" note). -/
theorem solve_empty_input_early_return (c : PackingConstraints) (out : SolverOutcome) (t : ℚ) :
    solve [] c out t =
      { packed_items := []
        total_weight_grams := 0
        total_similarity_score := 0
        weight_utilization := 0
        status := "infeasible"
        solver_time_ms := 0
        unpacked_items := []
        relaxed_constraints := [] } := rfl

/-- C4 (counterexample): a call that returns status `"infeasible"` without
the "Problem is infeasible" note — the empty-candidate early return.  The
claim as stated quantifies over every call returning `"infeasible"`, and
its own sources include the early-return lines 193-199. -/
theorem infeasible_note_missing_on_empty_input :
    (solve [] defaultConstraints SolverOutcome.infeasible 0).status = "infeasible"
      ∧ infeasibleNote ∉ (solve [] defaultConstraints SolverOutcome.infeasible 0).relaxed_constraints := by
  exact ⟨rfl, fun h => List.not_mem_nil infeasibleNote h⟩

/-- C4 (amended): for every call with a nonempty candidate list on which
the solver reports INFEASIBLE, the result has empty `packed_items`,
`unpacked_items` equal to the input list, zero totals and utilization,
status `"infeasible"`, and the relaxation notes contain
"Problem is infeasible — try relaxing weight or diversity constraints". -/
theorem infeasible_solver_result_shape (items : List PackableItem)
    (c : PackingConstraints) (t : ℚ) (hne : items ≠ []) :
    (solve items c SolverOutcome.infeasible t).packed_items = []
      ∧ (solve items c SolverOutcome.infeasible t).unpacked_items = items
      ∧ (solve items c SolverOutcome.infeasible t).total_weight_grams = 0
      ∧ (solve items c SolverOutcome.infeasible t).total_similarity_score = 0
      ∧ (solve items c SolverOutcome.infeasible t).weight_utilization = 0
      ∧ (solve items c SolverOutcome.infeasible t).status = "infeasible"
      ∧ infeasibleNote ∈ (solve items c SolverOutcome.infeasible t).relaxed_constraints := by
  rw [solve_infeasible_eq items c t hne]
  exact ⟨rfl, rfl, rfl, rfl, rfl, rfl,
    List.mem_append_right _ (List.mem_singleton.mpr rfl)⟩

/-- C4 witness: the amended infeasible-result claim holds at a concrete
nonempty input. -/
theorem infeasible_solver_result_shape_witness :
    (solve [w4Item] defaultConstraints SolverOutcome.infeasible 5).unpacked_items = [w4Item]
      ∧ infeasibleNote ∈ (solve [w4Item] defaultConstraints SolverOutcome.infeasible 5).relaxed_constraints := by
  have h := infeasible_solver_result_shape [w4Item] defaultConstraints 5 (by decide)
  exact ⟨h.2.1, h.2.2.2.2.2.2⟩

/-- C1 (counterexample): with a 1.69 g item and a 1.6 g cap the scaled
model accepts packing the item (16 ≤ 16 after truncation to one decimal),
and the reported total weight 1.69 g exceeds `max_weight_grams = 1.6` —
the claim fails for weights that are not multiples of 0.1 g. -/
theorem solve_weight_cap_counterexample :
    modelSat [cx1Item] cx1C [1]
      ∧ (solve [cx1Item] cx1C (SolverOutcome.solution true [1]) 0).status = "optimal"
      ∧ cx1C.max_weight_grams
          < (solve [cx1Item] cx1C (SolverOutcome.solution true [1]) 0).total_weight_grams := by
  refine ⟨by decide, rfl, by decide⟩

/-- C1 (amended): if every candidate weight is an exact multiple of 0.1 g
(`weight_grams * 10` integral — the precision the `SCALE = 10` truncation
preserves) and the weight cap is nonnegative, then every solver assignment
satisfying the model yields `total_weight_grams ≤ max_weight_grams`. -/
theorem solve_weight_cap_decigram (items : List PackableItem) (c : PackingConstraints)
    (q : List ℕ) (opt : Bool) (t : ℚ)
    (hw : ∀ it ∈ items, ∃ z : ℤ, it.weight_grams * 10 = (z : ℚ))
    (hmax : 0 ≤ c.max_weight_grams)
    (hsat : modelSat items c q) :
    (solve items c (SolverOutcome.solution opt q) t).total_weight_grams
      ≤ c.max_weight_grams := by
  by_cases hne : items = []
  · subst hne
    exact hmax
  · rw [solve_solution_eq items c q opt t hne, successResult_total_weight]
    unfold packedOf
    rw [wmap_filter_pos]
    obtain ⟨-, -, hwt, -, -, -, -⟩ := hsat
    have hcast := scaledWeight_sum_cast (items.zip q)
      (fun p hp => hw p.1 (List.of_mem_zip hp).1)
    have h2 : ((((items.zip q).map fun p => (p.2 : ℤ) * scaledWeight p.1).sum : ℤ) : ℚ)
        ≤ ((scaledMax c : ℤ) : ℚ) := by exact_mod_cast hwt
    rw [hcast] at h2
    have h3 : ((scaledMax c : ℤ) : ℚ) ≤ c.max_weight_grams * 10 := by
      unfold scaledMax
      exact pyInt_cast_le (mul_nonneg hmax (by norm_num))
    linarith

/-- C1 witness: the amended weight-cap claim holds at a concrete instance
(two 0.5 g units under a 1 g cap). -/
theorem solve_weight_cap_decigram_witness :
    (solve [w1Item] w1C (SolverOutcome.solution true [2]) 0).total_weight_grams
      ≤ w1C.max_weight_grams :=
  solve_weight_cap_decigram [w1Item] w1C [2] true 0
    (fun it hit => ⟨5, by rw [List.mem_singleton.mp hit]; norm_num [w1Item]⟩)
    (by decide)
    (by decide)

/-- C5 (confirmed): on a successful solve (status `"optimal"` or
`"feasible"`), every packed quantity respects the inventory bound — capped
by `max_per_item` when it is set — every category maximum holds over the
packed items (also vacuously for categories with no candidates), and every
pinned id with a matching candidate is packed at least once. -/
theorem solve_success_invariants (items : List PackableItem) (c : PackingConstraints)
    (q : List ℕ) (opt : Bool) (t : ℚ) (hne : items ≠ []) (hsat : modelSat items c q) :
    ((solve items c (SolverOutcome.solution opt q) t).status = "optimal"
        ∨ (solve items c (SolverOutcome.solution opt q) t).status = "feasible")
      ∧ (∀ p ∈ (solve items c (SolverOutcome.solution opt q) t).packed_items,
          (c.max_per_item = none → p.2 ≤ p.1.quantity_owned)
            ∧ (∀ m, c.max_per_item = some m → p.2 ≤ min p.1.quantity_owned m))
      ∧ (∀ pr ∈ c.category_maximums,
          qtyWhere (solve items c (SolverOutcome.solution opt q) t).packed_items
            (fun it => it.category == pr.1) ≤ pr.2)
      ∧ (∀ pid ∈ c.pinned_items, hasPin items pid = true →
          1 ≤ qtyWhere (solve items c (SolverOutcome.solution opt q) t).packed_items
            (fun it => it.item_id == pid)) := by
  rw [solve_solution_eq items c q opt t hne]
  obtain ⟨hlen, hub, hwt, hcm, hcx, htm, hpin⟩ := hsat
  refine ⟨?_, ?_, ?_, ?_⟩
  · rw [successResult_status]
    cases opt
    · right; rfl
    · left; rfl
  · intro p hp
    rw [successResult_packed] at hp
    have hzip : p ∈ items.zip q := List.mem_of_mem_filter hp
    have hb := hub p hzip
    refine ⟨fun hnone => ?_, fun m hm => ?_⟩
    · simpa [upperBound, hnone] using hb
    · simpa [upperBound, hm] using hb
  · intro pr hpr
    rw [successResult_packed]
    unfold packedOf
    rw [qtyWhere_filter_pos]
    cases hcat : hasCat items pr.1 with
    | true => exact hcx pr hpr hcat
    | false =>
      have h0 : qtyWhere (items.zip q) (fun it => it.category == pr.1) = 0 := by
        apply qtyWhere_eq_zero
        intro p hp
        have hi := (List.of_mem_zip hp).1
        have hall := List.any_eq_false.mp hcat
        cases hfp : (p.1.category == pr.1)
        · rfl
        · exact absurd hfp (hall p.1 hi)
      rw [h0]
      exact Nat.zero_le _
  · intro pid hpid hhas
    rw [successResult_packed]
    unfold packedOf
    rw [qtyWhere_filter_pos]
    exact hpin pid hpid hhas

/-- C5 witness: the invariants hold at a concrete successful solve with a
pinned item, a category maximum and `max_per_item = 2`. -/
theorem solve_success_invariants_witness :
    1 ≤ qtyWhere (solve w5Items w5C (SolverOutcome.solution true [2, 1]) 0).packed_items
        (fun it => it.item_id == "p1")
      ∧ qtyWhere (solve w5Items w5C (SolverOutcome.solution true [2, 1]) 0).packed_items
          (fun it => it.category == "clothing") ≤ 1 := by
  have h := solve_success_invariants w5Items w5C [2, 1] true 0 (by decide) (by decide)
  exact ⟨h.2.2.2 "p1" (List.mem_singleton.mpr rfl) (by decide),
    h.2.2.1 ("clothing", 1) (List.mem_singleton.mpr rfl)⟩

/-- C3 (counterexample): the claim computes availability as
`A_cat = sum of U_i` with `U_i = min(quantity_owned, max_per_item)`; the
source sums the raw `quantity_owned` (line 232).  With two medical items of
two owned each, `max_per_item = 1` and `medical ≥ 3`: the claim demands the
effective minimum `min(3, 2) = 2` with a relaxation note, but the code
keeps the minimum at 3 and records nothing — and the resulting model
rejects the best claim-conforming assignment `[1, 1]`. -/
theorem minimum_relaxation_spec_counterexample :
    effCatMin cx3Items "medical" 3 = 3
      ∧ specEffCatMin cx3C cx3Items "medical" 3 = 2
      ∧ relaxedNotes cx3Items cx3C = []
      ∧ ¬modelSat cx3Items cx3C [1, 1] := by
  refine ⟨rfl, rfl, rfl, by decide⟩

/-- C3 (amended): the constraint posted for each category (and tag)
minimum uses the effective minimum `min(m, A)` where `A` sums the raw
`quantity_owned` of matching candidates, and a relaxation note with that
effective minimum is recorded exactly when `A < m`; hence after a
successful solve every category/tag minimum either holds at its declared
level or its relaxation note appears in `relaxed_constraints`. -/
theorem minimum_relaxation_uses_quantity_owned (items : List PackableItem)
    (c : PackingConstraints) (q : List ℕ) (hsat : modelSat items c q) :
    (∀ p ∈ c.category_minimums, hasCat items p.1 = true →
        (effCatMin items p.1 p.2 ≤ catQty items q p.1
          ∧ (p.2 ≤ catAvail items p.1 →
              p.2 ≤ catQty items q p.1 ∧ catMinNote items p = none)
          ∧ (catAvail items p.1 < p.2 →
              catMinNote items p = some (catRelaxNote p.1 p.2 (catAvail items p.1))
                ∧ catRelaxNote p.1 p.2 (catAvail items p.1) ∈ relaxedNotes items c)))
      ∧ (∀ p ∈ c.tag_minimums, hasTag items p.1 = true →
          (effTagMin items p.1 p.2 ≤ tagQty items q p.1
            ∧ (p.2 ≤ tagAvail items p.1 →
                p.2 ≤ tagQty items q p.1 ∧ tagMinNote items p = none)
            ∧ (tagAvail items p.1 < p.2 →
                tagMinNote items p = some (tagRelaxNote p.1 p.2 (tagAvail items p.1))
                  ∧ tagRelaxNote p.1 p.2 (tagAvail items p.1) ∈ relaxedNotes items c))) := by
  obtain ⟨-, -, -, hcm, -, htm, -⟩ := hsat
  constructor
  · intro p hp hhas
    refine ⟨hcm p hp hhas, fun hle => ⟨?_, ?_⟩, fun hlt => ⟨?_, ?_⟩⟩
    · have h := hcm p hp hhas
      rwa [effCatMin, min_eq_left hle] at h
    · simp [catMinNote, hhas, Nat.not_lt.mpr hle]
    · simp [catMinNote, hhas, hlt]
    · unfold relaxedNotes
      refine List.mem_append_left _ (List.mem_append_left _ ?_)
      exact List.mem_filterMap.mpr ⟨p, hp, by simp [catMinNote, hhas, hlt]⟩
  · intro p hp hhas
    refine ⟨htm p hp hhas, fun hle => ⟨?_, ?_⟩, fun hlt => ⟨?_, ?_⟩⟩
    · have h := htm p hp hhas
      rwa [effTagMin, min_eq_left hle] at h
    · simp [tagMinNote, hhas, Nat.not_lt.mpr hle]
    · simp [tagMinNote, hhas, hlt]
    · unfold relaxedNotes
      refine List.mem_append_left _ (List.mem_append_right _ ?_)
      exact List.mem_filterMap.mpr ⟨p, hp, by simp [tagMinNote, hhas, hlt]⟩

/-- C3 witness: the amended relaxation claim at a concrete instance — one
medical wound-care item against minimums of 2 produces both relaxation
notes. -/
theorem minimum_relaxation_uses_quantity_owned_witness :
    catRelaxNote "medical" 2 1 ∈ relaxedNotes w3Items w3C
      ∧ tagRelaxNote "wound_care" 2 1 ∈ relaxedNotes w3Items w3C := by
  have h := minimum_relaxation_uses_quantity_owned w3Items w3C [1] (by decide)
  exact ⟨((h.1 ("medical", 2) (List.mem_singleton.mpr rfl) (by decide)).2.2 (by decide)).2,
    ((h.2 ("wound_care", 2) (List.mem_singleton.mpr rfl) (by decide)).2.2 (by decide)).2⟩

/-- An item whose scaled score truncates: `int(5565.6) = 5565`, while the
claimed `round` gives 5566. -/
def cx6s : PackableItem := ⟨"s", "s", 13889 / 25000, 1, 1, "misc", []⟩

/-- Three items engineered so that an 11-unit selection beats a 12-unit
selection of equal total similarity and equal total weight under the
truncated scores. -/
def cx6Items : List PackableItem :=
  [⟨"a", "a", 7 / 75000, 11, 12, "misc", []⟩,
   ⟨"b", "b", 0, 12, 10, "misc", []⟩,
   ⟨"c", "c", 7 / 6250, 12, 1, "misc", []⟩]

/-- A 200 g cap admitting both selections of `cx6Items`. -/
def cx6C : PackingConstraints := ⟨200, [], [], [], none, []⟩

/-- Witness item with similarity 0, whose scaled score is exactly 10. -/
def w6Items : List PackableItem := [⟨"i", "i", 0, 1, 5, "misc", []⟩]

/-- C6 (counterexample): the scaling uses Python `int` (truncation), not
`round` — they differ at similarity 0.55556 — and under truncation the
claimed count preference fails: both selections below satisfy the model,
have equal total similarity and equal total weight, yet the objective
strictly prefers the selection with fewer items (121 over 120 for 11
items against 12). -/
theorem scaled_score_round_counterexample :
    scaledScore cx6s ≠ specScaledScore cx6s.similarity_score
      ∧ modelSat cx6Items cx6C [12, 0, 0]
      ∧ modelSat cx6Items cx6C [0, 10, 1]
      ∧ totalSimOf cx6Items [12, 0, 0] = totalSimOf cx6Items [0, 10, 1]
      ∧ selWeightOf cx6Items [12, 0, 0] = selWeightOf cx6Items [0, 10, 1]
      ∧ countOf cx6Items [0, 10, 1] < countOf cx6Items [12, 0, 0]
      ∧ objective cx6Items [12, 0, 0] < objective cx6Items [0, 10, 1] := by
  exact ⟨by decide, by decide, by decide, by decide, by decide, by decide, by decide⟩

/-- C6 (amended): the objective is `sum x_i * int((similarity_i + 0.001) *
10000)`; whenever every scaled score is exact (each `(similarity_i +
0.001) * 10000` an integer, e.g. similarities with at most four decimal
places), among selections of equal total similarity the objective strictly
prefers the one packing more items — the ε-per-item bonus of 10 points per
unit. -/
theorem objective_prefers_count_on_exact_scores (items : List PackableItem)
    (q r : List ℕ)
    (hexact : ∀ it ∈ items, ∃ z : ℤ, (it.similarity_score + 1 / 1000) * 10000 = (z : ℚ))
    (hsim : totalSimOf items q = totalSimOf items r)
    (hcount : countOf items r < countOf items q) :
    objective items r < objective items q := by
  have hq := scaledScore_sum_cast (items.zip q)
    (fun p hp => hexact p.1 (List.of_mem_zip hp).1)
  have hr := scaledScore_sum_cast (items.zip r)
    (fun p hp => hexact p.1 (List.of_mem_zip hp).1)
  rw [← Int.cast_lt (R := ℚ)]
  unfold objective
  rw [hq, hr]
  unfold totalSimOf at hsim
  unfold countOf at hcount
  have hc : ((((items.zip r).map fun p => p.2).sum : ℕ) : ℚ)
      < ((((items.zip q).map fun p => p.2).sum : ℕ) : ℚ) := by exact_mod_cast hcount
  rw [hsim]
  linarith

/-- C6 witness: the amended count-preference claim at a concrete instance —
packing two units beats packing one at equal (zero) total similarity. -/
theorem objective_prefers_count_witness :
    objective w6Items [1] < objective w6Items [2] :=
  objective_prefers_count_on_exact_scores w6Items [2] [1]
    (fun it hit => ⟨10, by rw [List.mem_singleton.mp hit]; norm_num [w6Items]⟩)
    (by decide)
    (by decide)

theorem gatherAll_all_ok {α : Type} (l : List α) :
    gatherAll (l.map Except.ok) = Except.ok l := by
  induction l with
  | nil => rfl
  | cons a tl ih =>
    show (gatherAll (tl.map Except.ok)).map (fun l => a :: l) = Except.ok (a :: tl)
    rw [ih]
    rfl

theorem gatherAll_error {α : Type} (pre post : List (Except String α)) (e : String) :
    ∃ msg, gatherAll (pre ++ Except.error e :: post) = Except.error msg := by
  induction pre with
  | nil => exact ⟨e, rfl⟩
  | cons x tl ih =>
    obtain ⟨msg, hmsg⟩ := ih
    cases x with
    | error e2 => exact ⟨e2, rfl⟩
    | ok a =>
      refine ⟨msg, ?_⟩
      show (gatherAll (tl ++ Except.error e :: post)).map (fun l => a :: l) = Except.error msg
      rw [hmsg]
      rfl

/-- A successfully extracted context for the batch counterexample. -/
def cx7Ctx : ItemContext := ⟨"jacket", "clothing", none, []⟩

/-- C7 (counterexample): `extract_batch` uses `asyncio.gather` without
`return_exceptions`, so one failing extraction fails the whole batch — the
successful first image's context is not returned. -/
theorem extract_batch_poisoned_by_one_failure :
    extract_batch [Except.ok cx7Ctx, Except.error "bad image"]
      = Except.error "bad image" := rfl

/-- C7 (amended): `extract_batch` dispatches every extraction and awaits
them all; when all succeed it returns their contexts in input order, and
when any extraction fails the whole batch call fails with an extraction
error — no per-item partial results are delivered. -/
theorem extract_batch_all_or_nothing :
    (∀ ctxs : List ItemContext, extract_batch (ctxs.map Except.ok) = Except.ok ctxs)
      ∧ (∀ (pre post : List (Except String ItemContext)) (e : String),
          ∃ msg, extract_batch (pre ++ Except.error e :: post) = Except.error msg) :=
  ⟨fun ctxs => gatherAll_all_ok ctxs, fun pre post e => gatherAll_error pre post e⟩

theorem lookup_mem {α β : Type} [BEq α] [LawfulBEq α] {l : List (α × β)} {k : α} {v : β}
    (h : l.lookup k = some v) : (k, v) ∈ l := by
  induction l with
  | nil => simp [List.lookup] at h
  | cons p tl ih =>
    cases p with
    | mk a b =>
      simp only [List.lookup] at h
      cases hk : k == a with
      | true =>
        rw [hk] at h
        simp only [Option.some.injEq] at h
        have hka : k = a := eq_of_beq hk
        rw [← hka, ← h]
        exact List.mem_cons_self _ _
      | false =>
        rw [hk] at h
        exact List.mem_cons_of_mem _ (ih h)

theorem estimate_weight_pos (it : RetrievedItem) : 0 < estimate_weight it := by
  unfold estimate_weight
  cases h : WEIGHT_ESTIMATES_GRAMS.lookup (pyLower (orBlank it.context.weight_estimate "medium")) with
  | none => norm_num
  | some v =>
    have hv := lookup_mem h
    simp only [WEIGHT_ESTIMATES_GRAMS, List.mem_cons, List.not_mem_nil, or_false,
      Prod.mk.injEq] at hv
    rw [Option.getD_some]
    rcases hv with ⟨-, rfl⟩ | ⟨-, rfl⟩ | ⟨-, rfl⟩ | ⟨-, rfl⟩ <;> norm_num

/-- A retrieved item with no stored weight and no estimate label. -/
def cx8RI : RetrievedItem := ⟨"a", 1 / 2, none, none, ⟨"x", "misc", none, []⟩⟩

/-- C8 (counterexample): a negative weight override (−5 g) is truthy in
Python, so it is taken by precedence and the resulting `weight_grams` is
−5 — not strictly positive as the claim asserts. -/
theorem retrieved_weight_positive_counterexample :
    ((retrieved_to_packable [cx8RI] [] [("a", -5)]).map fun p => p.weight_grams) = [-5]
      ∧ ¬(0 : ℚ) < -5 := by
  exact ⟨by decide, by decide⟩

/-- C8 (amended): provided every supplied weight override and every stored
explicit weight is strictly positive, `retrieved_to_packable` realises the
spec's precedence (override → stored explicit → estimate, with the
estimate table ultralight = 100 / light = 300 / medium = 700 / heavy =
1500 case-insensitively, a missing label treated as medium and an
unrecognized one as 500), takes `quantity_owned` from the inventory map
with default 1, and every resulting `weight_grams` is strictly positive. -/
theorem retrieved_to_packable_weights (items : List RetrievedItem)
    (inv : List (String × ℕ)) (ov : List (String × ℚ))
    (hov : ∀ p ∈ ov, 0 < p.2)
    (hst : ∀ it ∈ items, 0 < it.weight_grams.getD 700) :
    retrieved_to_packable items inv ov = items.map (specRetrievedToPackable inv ov)
      ∧ ∀ p ∈ retrieved_to_packable items inv ov,
          0 < p.weight_grams ∧ p.quantity_owned = (inv.lookup p.item_id).getD 1 := by
  have hkey : ∀ it ∈ items,
      pyOrDefault (pyOrWeight (ov.lookup it.item_id) it.weight_grams) (estimate_weight it)
          = specWeightOf ov it
        ∧ 0 < specWeightOf ov it := by
    intro it hit
    cases hlv : ov.lookup it.item_id with
    | some w =>
      have hw : 0 < w := hov (it.item_id, w) (lookup_mem hlv)
      refine ⟨?_, ?_⟩
      · simp [pyOrWeight, pyOrDefault, specWeightOf, hlv, hw.ne']
      · simp only [specWeightOf, hlv]
        exact hw
    | none =>
      cases hwg : it.weight_grams with
      | some w =>
        have hw : 0 < w := by
          have h := hst it hit
          rwa [hwg, Option.getD_some] at h
        refine ⟨?_, ?_⟩
        · simp [pyOrWeight, pyOrDefault, specWeightOf, hlv, hwg, hw.ne']
        · simp only [specWeightOf, hlv, hwg]
          exact hw
      | none =>
        refine ⟨by simp [pyOrWeight, pyOrDefault, specWeightOf, hlv, hwg], ?_⟩
        simp only [specWeightOf, hlv, hwg]
        exact estimate_weight_pos it
  have hmap : retrieved_to_packable items inv ov = items.map (specRetrievedToPackable inv ov) := by
    unfold retrieved_to_packable
    apply List.map_congr_left
    intro it hit
    unfold specRetrievedToPackable
    rw [(hkey it hit).1]
  refine ⟨hmap, ?_⟩
  intro p hp
  rw [hmap] at hp
  obtain ⟨it, hit, rfl⟩ := List.mem_map.mp hp
  exact ⟨(hkey it hit).2, rfl⟩

/-- Witness item resolved by a weight override. -/
def w8a : RetrievedItem := ⟨"a", 1 / 2, none, none, ⟨"na", "misc", none, []⟩⟩

/-- Witness item resolved by its stored explicit weight. -/
def w8b : RetrievedItem := ⟨"b", 3 / 5, none, some 3, ⟨"nb", "tech", none, []⟩⟩

/-- Witness item resolved by the case-insensitive estimate table. -/
def w8c : RetrievedItem := ⟨"c", 7 / 10, none, none, ⟨"nc", "camping", some "LIGHT", []⟩⟩

/-- C8 witness: the amended conversion claim at a concrete instance
covering all three precedence branches. -/
theorem retrieved_to_packable_weights_witness :
    retrieved_to_packable [w8a, w8b, w8c] [("b", 4)] [("a", 5 / 2)]
        = [w8a, w8b, w8c].map (specRetrievedToPackable [("b", 4)] [("a", 5 / 2)])
      ∧ ∀ p ∈ retrieved_to_packable [w8a, w8b, w8c] [("b", 4)] [("a", 5 / 2)],
          0 < p.weight_grams
            ∧ p.quantity_owned = (List.lookup p.item_id [("b", 4)]).getD 1 :=
  retrieved_to_packable_weights [w8a, w8b, w8c] [("b", 4)] [("a", 5 / 2)]
    (by decide) (by decide)

theorem lookup_eq_some_of_mem {l : List (String × String)} {k v : String}
    (hn : (l.map Prod.fst).Nodup) (hm : (k, v) ∈ l) : l.lookup k = some v := by
  induction l with
  | nil => cases hm
  | cons p tl ih =>
    rw [List.map_cons, List.nodup_cons] at hn
    rcases List.mem_cons.mp hm with heq | htl
    · rw [← heq]
      simp [List.lookup]
    · have hk : ¬k = p.1 := by
        intro hkp
        exact hn.1 (hkp ▸ List.mem_map.mpr ⟨(k, v), htl, rfl⟩)
      have hbeq : (k == p.1) = false := beq_eq_false_iff_ne.mpr hk
      cases p with
      | mk a b =>
        simp only [List.lookup]
        rw [show (k == a) = false from hbeq]
        exact ih hn.2 htl

theorem dictGet_eq_some_of_mem {l : List (String × String)} {k v : String}
    (hn : (l.map Prod.fst).Nodup) (hm : (k, v) ∈ l) : dictGet l k = some v := by
  unfold dictGet
  apply lookup_eq_some_of_mem
  · rw [List.map_reverse]
    exact List.nodup_reverse.mpr hn
  · exact List.mem_reverse.mpr hm

theorem lookupItem_mem {all : List RetrievedItem} {id : String} {it : RetrievedItem}
    (h : lookupItem all id = some it) : it ∈ all := by
  unfold lookupItem at h
  exact List.mem_reverse.mp (List.mem_of_find?_eq_some h)

theorem parse_plan_selected_def (data : SynthData) (all : List RetrievedItem) :
    (parse_plan data all).selected_items
      = data.selected_items.filterMap fun s => lookupItem all s.item_id := rfl

theorem parse_plan_rejected_def (data : SynthData) (all : List RetrievedItem) :
    (parse_plan data all).rejected_items
      = data.rejected_items.filterMap fun r => lookupItem all r.item_id := rfl

theorem parse_plan_reasoning_def (data : SynthData) (all : List RetrievedItem) :
    (parse_plan data all).reasoning
      = ((data.selected_items.filter fun s => (lookupItem all s.item_id).isSome).map
          fun s => (s.item_id, s.reason))
        ++ ((data.rejected_items.filter fun r => (lookupItem all r.item_id).isSome).map
          fun r => (r.item_id, "REJECTED: " ++ r.reason)) := rfl

/-- Retrieved item used by the duplicate-id counterexample. -/
def cx9Item : RetrievedItem := ⟨"a", 1 / 2, none, none, ⟨"ax", "misc", none, []⟩⟩

/-- A synthesizer response listing the same id as both selected and
rejected. -/
def cx9Data : SynthData := ⟨"", [⟨"a", "keep it"⟩], [⟨"a", "too heavy"⟩], [], []⟩

/-- C9 (counterexample): when an id appears in both `selected_items` and
`rejected_items`, the rejected entry overwrites the reasoning, so the
selected item's id maps to "REJECTED: …", not to the selection reason the
claim asserts. -/
theorem parse_plan_duplicate_id_counterexample :
    (parse_plan cx9Data [cx9Item]).selected_items = [cx9Item]
      ∧ dictGet (parse_plan cx9Data [cx9Item]).reasoning "a" = some "REJECTED: too heavy"
      ∧ dictGet (parse_plan cx9Data [cx9Item]).reasoning "a" ≠ some "keep it" := by
  exact ⟨rfl, rfl, by decide⟩

/-- C9 (amended): provided no item id occurs twice across the selected and
rejected entries, `parse_plan` keeps only items whose ids resolve in the
retrieval set (unknown ids are dropped from both lists), maps each
resolved selected id to the LLM's reason and each resolved rejected id to
"REJECTED: " plus the reason, and appends every cross-domain insight to
the warnings prefixed with "[INSIGHT] ". -/
theorem parse_plan_reasoning_correct (data : SynthData) (all_items : List RetrievedItem)
    (hnodup : ((data.selected_items ++ data.rejected_items).map fun s => s.item_id).Nodup) :
    (∀ it ∈ (parse_plan data all_items).selected_items, it ∈ all_items)
      ∧ (∀ it ∈ (parse_plan data all_items).rejected_items, it ∈ all_items)
      ∧ (∀ s ∈ data.selected_items, (lookupItem all_items s.item_id).isSome = true →
          dictGet (parse_plan data all_items).reasoning s.item_id = some s.reason)
      ∧ (∀ r ∈ data.rejected_items, (lookupItem all_items r.item_id).isSome = true →
          dictGet (parse_plan data all_items).reasoning r.item_id
            = some ("REJECTED: " ++ r.reason))
      ∧ (parse_plan data all_items).warnings
          = data.warnings ++ data.cross_domain_insights.map fun s => "[INSIGHT] " ++ s := by
  have hkeys : ((parse_plan data all_items).reasoning.map Prod.fst).Nodup := by
    rw [parse_plan_reasoning_def, List.map_append, List.map_map, List.map_map]
    rw [List.map_append] at hnodup
    exact List.Nodup.sublist
      (List.Sublist.append ((List.filter_sublist _).map _) ((List.filter_sublist _).map _))
      hnodup
  refine ⟨?_, ?_, ?_, ?_, rfl⟩
  · intro it hit
    rw [parse_plan_selected_def] at hit
    obtain ⟨s, -, hlook⟩ := List.mem_filterMap.mp hit
    exact lookupItem_mem hlook
  · intro it hit
    rw [parse_plan_rejected_def] at hit
    obtain ⟨r, -, hlook⟩ := List.mem_filterMap.mp hit
    exact lookupItem_mem hlook
  · intro s hs hlook
    apply dictGet_eq_some_of_mem hkeys
    rw [parse_plan_reasoning_def]
    exact List.mem_append_left _
      (List.mem_map.mpr ⟨s, List.mem_filter.mpr ⟨hs, hlook⟩, rfl⟩)
  · intro r hr hlook
    apply dictGet_eq_some_of_mem hkeys
    rw [parse_plan_reasoning_def]
    exact List.mem_append_right _
      (List.mem_map.mpr ⟨r, List.mem_filter.mpr ⟨hr, hlook⟩, rfl⟩)

/-- Retrieved item used by the parse-plan witness. -/
def w9Item : RetrievedItem := ⟨"a", 1 / 2, none, none, ⟨"ax", "misc", none, []⟩⟩

/-- A response selecting a known id, rejecting an unknown one, with one
insight. -/
def w9Data : SynthData := ⟨"s", [⟨"a", "good"⟩], [⟨"zz", "bad"⟩], ["w0"], ["i0"]⟩

/-- C9 witness: the amended parsing claim at a concrete instance — the
known selected id keeps its reason and the insight is appended to the
warnings with the "[INSIGHT] " marker. -/
theorem parse_plan_reasoning_correct_witness :
    dictGet (parse_plan w9Data [w9Item]).reasoning "a" = some "good"
      ∧ (parse_plan w9Data [w9Item]).warnings
          = w9Data.warnings ++ w9Data.cross_domain_insights.map fun s => "[INSIGHT] " ++ s := by
  have h := parse_plan_reasoning_correct w9Data [w9Item] (by decide)
  exact ⟨h.2.2.1 ⟨"a", "good"⟩ (List.mem_singleton.mpr rfl) (by decide), h.2.2.2.2⟩

theorem containerPacked_weight_sum (items : List PackableItem) (row : ℕ → ℕ) (n : ℕ) :
    (((List.range n).filterMap fun i =>
        if 0 < row i then some (items.getD i default, row i) else none).map
      fun p => p.1.weight_grams * (p.2 : ℚ)).sum
      = ∑ i ∈ Finset.range n, (items.getD i default).weight_grams * row i := by
  induction n with
  | zero => simp
  | succ n ih =>
    rw [List.range_succ, List.filterMap_append, List.map_append, List.sum_append, ih,
      Finset.sum_range_succ]
    by_cases h : 0 < row n
    · simp [h]
    · have h0 : row n = 0 := Nat.eq_zero_of_not_pos h
      simp [h, h0]

theorem list_range_map_sum_rat (f : ℕ → ℚ) (n : ℕ) :
    ((List.range n).map f).sum = ∑ i ∈ Finset.range n, f i := by
  induction n with
  | zero => rfl
  | succ n ih =>
    rw [List.range_succ, List.map_append, List.sum_append, Finset.sum_range_succ, ih]
    simp

theorem solve_multi_containers_def (items : List PackableItem) (specs : List ContainerSpec)
    (dc : Option PackingConstraints) (X : ℕ → ℕ → ℕ) (opt : Bool) (t : ℚ) :
    (solve_multi items specs dc (MultiOutcome.solution opt X) t).container_results
      = (List.range specs.length).map fun b =>
          containerResultOf (specs.getD b default) items (X b) := rfl

theorem solve_multi_unpacked_def (items : List PackableItem) (specs : List ContainerSpec)
    (dc : Option PackingConstraints) (X : ℕ → ℕ → ℕ) (opt : Bool) (t : ℚ) :
    (solve_multi items specs dc (MultiOutcome.solution opt X) t).unpacked_items
      = (List.range items.length).filterMap fun i =>
          if itemTotal specs.length X i = 0 then some (items.getD i default) else none := rfl

/-- C2 (confirmed, spec-modelled): the multi-bin solve takes a list of
`ContainerSpec` and optional diversity constraints; on a successful
outcome every returned container's packed list respects that container's
weight cap, every packed quantity is bounded by the item's cross-bin bound
`U_i = min(quantity_owned, max_per_item)`, the global `unpacked_items` are
all drawn from the candidate list, the reported total weight is the sum of
the per-container totals, and the status is `"optimal"` or `"feasible"`.
The objective maximised by the abstracted solver is `multiObjective`, the
spec's `sum x_{i,b} * scaled_score_i`. -/
theorem solve_multi_invariants (items : List PackableItem) (specs : List ContainerSpec)
    (dc : Option PackingConstraints) (X : ℕ → ℕ → ℕ) (opt : Bool) (t : ℚ)
    (hsat : multiModelSat items specs dc X) :
    (∀ cr ∈ (solve_multi items specs dc (MultiOutcome.solution opt X) t).container_results,
        (cr.packed_items.map fun p => p.1.weight_grams * (p.2 : ℚ)).sum ≤ cr.max_weight_grams)
      ∧ (∀ cr ∈ (solve_multi items specs dc (MultiOutcome.solution opt X) t).container_results,
          ∀ p ∈ cr.packed_items, p.2 ≤ mUpper dc p.1)
      ∧ (∀ it ∈ (solve_multi items specs dc (MultiOutcome.solution opt X) t).unpacked_items,
          it ∈ items)
      ∧ (solve_multi items specs dc (MultiOutcome.solution opt X) t).total_weight_grams
          = ((solve_multi items specs dc (MultiOutcome.solution opt X) t).container_results.map
              fun cr => cr.total_weight_grams).sum
      ∧ ((solve_multi items specs dc (MultiOutcome.solution opt X) t).status = "optimal"
          ∨ (solve_multi items specs dc (MultiOutcome.solution opt X) t).status = "feasible") := by
  obtain ⟨hbin, hitem, -⟩ := hsat
  refine ⟨?_, ?_, ?_, ?_, ?_⟩
  · intro cr hcr
    rw [solve_multi_containers_def] at hcr
    obtain ⟨b, hb, rfl⟩ := List.mem_map.mp hcr
    show ((containerPacked items (X b)).map fun p => p.1.weight_grams * (p.2 : ℚ)).sum
      ≤ (specs.getD b default).max_weight_grams
    unfold containerPacked
    rw [containerPacked_weight_sum]
    exact hbin b (List.mem_range.mp hb)
  · intro cr hcr p hp
    rw [solve_multi_containers_def] at hcr
    obtain ⟨b, hb, rfl⟩ := List.mem_map.mp hcr
    obtain ⟨i, hi, hif⟩ := List.mem_filterMap.mp hp
    by_cases h : 0 < X b i
    · rw [if_pos h] at hif
      obtain ⟨hp1, hp2⟩ := Prod.mk.injEq .. ▸ Option.some.injEq .. ▸ hif
      have hle : X b i ≤ itemTotal specs.length X i :=
        Finset.single_le_sum (f := fun b => X b i) (fun _ _ => Nat.zero_le _)
          (Finset.mem_range.mpr (List.mem_range.mp hb))
      have hbound := hitem i (List.mem_range.mp hi)
      rw [← hp1, ← hp2]
      exact le_trans hle hbound
    · rw [if_neg h] at hif
      cases hif
  · intro it hit
    rw [solve_multi_unpacked_def] at hit
    obtain ⟨i, hi, hif⟩ := List.mem_filterMap.mp hit
    by_cases h : itemTotal specs.length X i = 0
    · rw [if_pos h, Option.some.injEq] at hif
      have hlt : i < items.length := List.mem_range.mp hi
      rw [← hif, List.getD_eq_getElem items default hlt]
      exact List.getElem_mem hlt
    · rw [if_neg h] at hif
      cases hif
  · show (∑ b ∈ Finset.range specs.length, binWeight items (X b))
      = (((List.range specs.length).map fun b =>
          containerResultOf (specs.getD b default) items (X b)).map
            fun cr => cr.total_weight_grams).sum
    rw [List.map_map]
    exact (list_range_map_sum_rat (fun b => binWeight items (X b)) specs.length).symm
  · cases opt
    · right; rfl
    · left; rfl

/-- Witness item for the multi-bin invariants. -/
def w2Item : PackableItem := ⟨"i", "i", 1 / 2, 1, 1, "misc", []⟩

/-- Witness container: 10 g capacity. -/
def w2Spec : ContainerSpec := ⟨"c1", "box", 10⟩

/-- C2 witness: the multi-bin invariants at a concrete one-item,
one-container instance packing one unit. -/
theorem solve_multi_invariants_witness :
    (solve_multi [w2Item] [w2Spec] none (MultiOutcome.solution true fun _ _ => 1) 0).total_weight_grams
        = ((solve_multi [w2Item] [w2Spec] none
              (MultiOutcome.solution true fun _ _ => 1) 0).container_results.map
            fun cr => cr.total_weight_grams).sum
      ∧ ((solve_multi [w2Item] [w2Spec] none
            (MultiOutcome.solution true fun _ _ => 1) 0).status = "optimal"
          ∨ (solve_multi [w2Item] [w2Spec] none
              (MultiOutcome.solution true fun _ _ => 1) 0).status = "feasible") := by
  have h := solve_multi_invariants [w2Item] [w2Spec] none (fun _ _ => 1) true 0 (by decide)
  exact ⟨h.2.2.2.1, h.2.2.2.2⟩

end Nexus
